import Mathlib

/-!
# Banking transactions API — verification of the money-movement engine

Shallow embedding of the `banking-assignment` service:

* `src/service/transactionService.ts` — `submitTransaction`,
  `checkSufficientBalance`, `processDeposit`, `processWithdrawal`,
  `processTransfer`, `getSummaryReport`;
* `src/controller/transactionController.ts` and `src/middleware/error.ts` —
  the HTTP authorization checks and the global error handler;
* `migrations/001_initial_schema.sql` — the store-level constraints
  (`chk_balance_non_negative` CHECK on `accounts.balance`, and the foreign
  keys from `transactions.source_account_id` / `destination_account_id`
  to `accounts.id`).

Money is modelled as `Int` (DECIMAL(15,2) amounts in fixed-point cents;
arithmetic on this type is exact, and range overflow is out of scope).
A SQL statement that violates a constraint raises an error; the service
wraps its work in one database transaction, so an error rolls every
mutation back and propagates to the caller.  We model this with
`Except String`: an `Except.error` outcome leaves the caller's database
state untouched.
-/

namespace Banking

inductive TxType where
  | deposit
  | withdrawal
  | transfer
deriving DecidableEq, Repr

inductive TxStatus where
  | completed
  | failed
deriving DecidableEq, Repr

/-- A row of the `accounts` table (timestamps and account_number omitted:
no claim mentions them except the summary report, which carries the
account_number through unchanged). -/
structure Account where
  id : Nat
  user_id : Nat
  balance : Int
deriving DecidableEq, Repr

/-- A row of the `transactions` table.  The surrogate `id`, the random
`transaction_id` and `created_at` are omitted: each insert appends a fresh
row at the end of the list, which captures uniqueness of rows without
modelling the identifier draw. -/
structure Txn where
  type : TxType
  amount : Int
  source_account_id : Option Nat
  destination_account_id : Option Nat
  status : TxStatus
  failure_reason : Option String
deriving DecidableEq, Repr

/-- The request body accepted by `submitTransaction`
(`CreateTransactionData` in `src/model/transaction.ts`).  The JS code
tests presence with truthiness (`!data.source_account_id`); the Joi layer
only admits positive integer ids, so `Option Nat` with `none` = absent is
the faithful model of the validated input space. -/
structure CreateTransactionData where
  type : TxType
  amount : Int
  source_account_id : Option Nat
  destination_account_id : Option Nat
deriving DecidableEq, Repr

/-- The database: `users` (id, username), `accounts`, and the append-only
`transactions` ledger. -/
structure DB where
  users : List (Nat × String)
  accounts : List Account
  transactions : List Txn
deriving DecidableEq, Repr

/-- `SELECT ... FROM accounts WHERE id = ?` — first matching row. -/
def findById (accts : List Account) (aid : Nat) : Option Account :=
  accts.find? (fun a => a.id = aid)

/-- Well-formed database: account ids are unique (they are the PRIMARY KEY
of the `accounts` table). -/
def WF (db : DB) : Prop :=
  (db.accounts.map Account.id).Nodup

instance (db : DB) : Decidable (WF db) := by
  unfold WF; infer_instance

/-- The effect of `UPDATE accounts SET balance = balance + d WHERE id = aid`
on one row. -/
def adjust (aid : Nat) (d : Int) (a : Account) : Account :=
  if a.id = aid then { a with balance := a.balance + d } else a

/-- `UPDATE accounts SET balance = balance + d WHERE id = aid`, subject to
the `chk_balance_non_negative` CHECK constraint of
`migrations/001_initial_schema.sql`: every matching row gets the new
balance, and the statement errors if any updated row's new balance would
be negative.  An UPDATE matching no row succeeds vacuously (MySQL reports
0 affected rows but no error). -/
def updateBalance (accts : List Account) (aid : Nat) (d : Int) :
    Except String (List Account) :=
  if accts.any (fun a => decide (a.id = aid ∧ a.balance + d < 0)) then
    .error "chk_balance_non_negative"
  else
    .ok (accts.map (adjust aid d))

/-- `TransactionService.processDeposit`:
`UPDATE accounts SET balance = balance + ? WHERE id = ?`. -/
def processDeposit (db : DB) (accountId : Nat) (amount : Int) :
    Except String DB :=
  match updateBalance db.accounts accountId amount with
  | .ok accts => .ok { db with accounts := accts }
  | .error e => .error e

/-- `TransactionService.processWithdrawal`:
`UPDATE accounts SET balance = balance - ? WHERE id = ?`. -/
def processWithdrawal (db : DB) (accountId : Nat) (amount : Int) :
    Except String DB :=
  match updateBalance db.accounts accountId (-amount) with
  | .ok accts => .ok { db with accounts := accts }
  | .error e => .error e

/-- `TransactionService.processTransfer`: debit the source, then credit
the destination, two UPDATE statements in that order. -/
def processTransfer (db : DB) (sourceId destId : Nat) (amount : Int) :
    Except String DB :=
  match processWithdrawal db sourceId amount with
  | .ok db1 => processDeposit db1 destId amount
  | .error e => .error e

/-- `TransactionService.checkSufficientBalance`: a plain
`SELECT balance FROM accounts WHERE id = ?` (no locking clause); an absent
account reads as insufficient. -/
def checkSufficientBalance (accts : List Account) (accountId : Nat)
    (amount : Int) : Bool :=
  match findById accts accountId with
  | none => false
  | some a => decide (amount ≤ a.balance)

/-- A foreign-key column value is admissible: NULL, or a reference to an
existing `accounts.id`. -/
def fkOk (accts : List Account) (ref : Option Nat) : Bool :=
  match ref with
  | some i => (findById accts i).isSome
  | none => true

/-- `INSERT INTO transactions ...`, subject to the two FOREIGN KEY
constraints of the schema: a non-NULL `source_account_id` or
`destination_account_id` must reference an existing `accounts.id`
(ER_NO_REFERENCED_ROW otherwise). -/
def insertTransaction (db : DB) (t : Txn) : Except String DB :=
  if !(fkOk db.accounts t.source_account_id) then
    .error "fk_transactions_source_account"
  else if !(fkOk db.accounts t.destination_account_id) then
    .error "fk_transactions_destination_account"
  else
    .ok { db with transactions := db.transactions ++ [t] }

/-- The ledger row built for the INSERT of
`TransactionService.submitTransaction` (lines 76–80): the request's own
fields (`data.source_account_id || null` — NULL-for-absent is the
`Option`), plus the computed status and failure reason. -/
def mkTxn (data : CreateTransactionData) (status : TxStatus)
    (failureReason : Option String) : Txn :=
  { type := data.type
    amount := data.amount
    source_account_id := data.source_account_id
    destination_account_id := data.destination_account_id
    status := status
    failure_reason := failureReason }

/-- Lines 24–73 of `TransactionService.submitTransaction`: the amount
check and the per-type branch, producing the status, the failure reason,
and the (possibly mutated) database. -/
def runTypeBranch (data : CreateTransactionData) (db : DB) :
    Except String (TxStatus × Option String × DB) :=
  if data.amount ≤ 0 then
    .ok (.failed, some "Negative or zero amount not allowed", db)
  else
    match data.type with
    | .deposit =>
      match data.destination_account_id with
      | none => .ok (.failed, some "Destination account required for deposit", db)
      | some destId =>
        match processDeposit db destId data.amount with
        | .ok db1 => .ok (.completed, none, db1)
        | .error e => .error e
    | .withdrawal =>
      match data.source_account_id with
      | none => .ok (.failed, some "Source account required for withdrawal", db)
      | some srcId =>
        if !(checkSufficientBalance db.accounts srcId data.amount) then
          .ok (.failed, some "Insufficient funds", db)
        else
          match processWithdrawal db srcId data.amount with
          | .ok db1 => .ok (.completed, none, db1)
          | .error e => .error e
    | .transfer =>
      match data.source_account_id, data.destination_account_id with
      | some srcId, some destId =>
        if !(checkSufficientBalance db.accounts srcId data.amount) then
          .ok (.failed, some "Insufficient funds", db)
        else
          match processTransfer db srcId destId data.amount with
          | .ok db1 => .ok (.completed, none, db1)
          | .error e => .error e
      | _, _ =>
        .ok (.failed, some "Both source and destination accounts required for transfer", db)

/-- `TransactionService.submitTransaction`: run the type branch, insert
the ledger row (whatever its status), commit.  `Except.error` models a
thrown error after rollback: the caller's database state is unchanged. -/
def submitTransaction (data : CreateTransactionData) (db : DB) :
    Except String (Txn × DB) :=
  match runTypeBranch data db with
  | .error e => .error e
  | .ok (status, failureReason, db1) =>
    match insertTransaction db1 (mkTxn data status failureReason) with
    | .ok db2 => .ok (mkTxn data status failureReason, db2)
    | .error e => .error e

/-- The database state a caller observes after one `submitTransaction`
call: the committed state on success, the rolled-back (original) state
when the call throws. -/
def runRequest (db : DB) (data : CreateTransactionData) : DB :=
  match submitTransaction data db with
  | .ok (_, db') => db'
  | .error _ => db

/-- A finite sequence of `submitTransaction` calls. -/
def runRequests (db : DB) (rs : List CreateTransactionData) : DB :=
  rs.foldl runRequest db

/-- Committed balance of an account, as read back by
`TransactionService.getAccountBalance`. -/
def balanceOf (db : DB) (aid : Nat) : Option Int :=
  (findById db.accounts aid).map Account.balance

/-! ## Summary report (`TransactionService.getSummaryReport`) -/

/-- `COALESCE(MAX(xs), 0)`: SQL `MAX` of the joined rows' amounts, `NULL`
(hence 0 after COALESCE) when the LEFT JOIN matched nothing. -/
def sqlMaxCoalesce0 (l : List Int) : Int :=
  match l with
  | [] => 0
  | x :: xs => xs.foldl max x

/-- The JOIN condition of the report query:
`(a.id = t.source_account_id OR a.id = t.destination_account_id) AND
t.status = 'completed'`. -/
def joinsWithAccount (aid : Nat) (t : Txn) : Bool :=
  (t.source_account_id = some aid || t.destination_account_id = some aid)
    && t.status = TxStatus.completed

structure AccountSummary where
  account_id : Nat
  username : Option String
  current_balance : Int
  largest_transaction : Int
deriving DecidableEq, Repr

/-- The accounts part of `TransactionService.getSummaryReport`: one group
per account (ids are the PRIMARY KEY, so GROUP BY a.id yields one row per
account), `username` via LEFT JOIN on `users`, and
`COALESCE(MAX(t.amount), 0)` over the completed transactions that
reference the account as source or destination. -/
def getSummaryReport (db : DB) : List AccountSummary :=
  db.accounts.map fun a =>
    { account_id := a.id
      username := (db.users.find? (fun u => u.1 = a.user_id)).map Prod.snd
      current_balance := a.balance
      largest_transaction :=
        sqlMaxCoalesce0 ((db.transactions.filter (joinsWithAccount a.id)).map Txn.amount) }

/-! ## HTTP layer (`TransactionController.submitTransaction` + `errorHandler`) -/

/-- `errorHandler` of `src/middleware/error.ts`: the response status is the
error's own `statusCode`, overridden for a fixed set of messages. -/
def errorHandlerStatus (message : String) (statusCode : Nat) : Nat :=
  if message = "Username already exists" then 409
  else if message = "Account number already exists" then 409
  else if message = "User does not exist" then 404
  else if message = "Insufficient funds" then 400
  else if message = "Source account not found" then 404
  else if message = "Destination account not found" then 404
  else if message = "Account not found" then 404
  else statusCode

structure HttpResult where
  status : Nat
  message : Option String
  txn : Option Txn
  db : DB
deriving DecidableEq, Repr

/-- An error escaping `TransactionController.submitTransaction`: its catch
block rewraps every `Error` — including the controller's own `AppError`s,
which extend `Error`, so their 403/404 statusCodes are discarded — as
`new AppError(error.message, 400)`; `errorHandler` then derives the final
status from the message with fallback 400. -/
def throwFromController (message : String) (db : DB) : HttpResult :=
  { status := errorHandlerStatus message 400
    message := some message
    txn := none
    db := db }

/-- `TransactionController.submitTransaction` for an authenticated caller
(`req.user.id = userId`) whose body passed Joi validation: existence and
ownership check on a present `source_account_id`; existence and ownership
check on `destination_account_id` only when the type is `deposit`; then
the service call.  A service error is rewrapped like the controller's own
errors. -/
def controllerSubmitTransaction (userId : Nat) (data : CreateTransactionData)
    (db : DB) : HttpResult :=
  let sourceCheck : Option String :=
    match data.source_account_id with
    | some s =>
      match findById db.accounts s with
      | none => some "Source account not found"
      | some a =>
        if a.user_id = userId then none
        else some "Unauthorized access to source account"
    | none => none
  match sourceCheck with
  | some m => throwFromController m db
  | none =>
    let destCheck : Option String :=
      match data.destination_account_id, data.type with
      | some d_, TxType.deposit =>
        match findById db.accounts d_ with
        | none => some "Destination account not found"
        | some a =>
          if a.user_id = userId then none
          else some "Unauthorized access to destination account"
      | _, _ => none
    match destCheck with
    | some m => throwFromController m db
    | none =>
      match submitTransaction data db with
      | .ok (t, db') => { status := 201, message := none, txn := some t, db := db' }
      | .error e => throwFromController e db

/-- The Joi schema `schemas.transaction` of `src/middleware/validation.ts`:
`source_account_id` required for withdrawal/transfer and forbidden
otherwise; `destination_account_id` required for deposit/transfer and
forbidden otherwise. -/
def shapeValid (data : CreateTransactionData) : Bool :=
  match data.type with
  | .deposit => data.source_account_id.isNone && data.destination_account_id.isSome
  | .withdrawal => data.source_account_id.isSome && data.destination_account_id.isNone
  | .transfer => data.source_account_id.isSome && data.destination_account_id.isSome

/-! ## Concurrent withdrawals

Two in-flight withdrawal submissions against the same committed store.
`checkSufficientBalance` issues a plain non-locking `SELECT`, so a read
event observes the committed balance without serializing against the
other submission; the UPDATE statements themselves serialize on the
row lock and are checked by `chk_balance_non_negative` against the value
the earlier committer left behind. -/

/-- One in-flight withdrawal: its parameters, the outcome of its
`checkSufficientBalance` SELECT once executed, and whether its debit
UPDATE committed (`some false` = the UPDATE fired the CHECK constraint
and the submission aborted). -/
structure WProc where
  accountId : Nat
  amount : Int
  passedCheck : Option Bool
  debited : Option Bool
deriving DecidableEq, Repr

structure CState where
  accounts : List Account
  p1 : WProc
  p2 : WProc
deriving DecidableEq, Repr

inductive Ev where
  | read1
  | read2
  | upd1
  | upd2
deriving DecidableEq, Repr

/-- A read event: run `checkSufficientBalance` against the committed
accounts (no lock taken). -/
def stepRead (accts : List Account) (p : WProc) : WProc :=
  { p with passedCheck := some (checkSufficientBalance accts p.accountId p.amount) }

/-- An update event: if the process passed its balance check, run the
debit UPDATE against the current committed accounts; `chk_balance_non_negative`
aborts the submission instead of committing a negative balance. -/
def stepUpd (accts : List Account) (p : WProc) : List Account × WProc :=
  match p.passedCheck with
  | some true =>
    match updateBalance accts p.accountId (-p.amount) with
    | .ok accts' => (accts', { p with debited := some true })
    | .error _ => (accts, { p with debited := some false })
  | _ => (accts, p)

def step (s : CState) (e : Ev) : CState :=
  match e with
  | .read1 => { s with p1 := stepRead s.accounts s.p1 }
  | .read2 => { s with p2 := stepRead s.accounts s.p2 }
  | .upd1 =>
    let r := stepUpd s.accounts s.p1
    { s with accounts := r.1, p1 := r.2 }
  | .upd2 =>
    let r := stepUpd s.accounts s.p2
    { s with accounts := r.1, p2 := r.2 }

/-- Execute one interleaving of the two submissions' events. -/
def runSchedule (s : CState) (es : List Ev) : CState :=
  es.foldl step s

/-! ## Predicates used in the statements -/

/-- All committed account balances are non-negative. -/
def allNonneg (db : DB) : Prop :=
  ∀ a ∈ db.accounts, 0 ≤ a.balance

instance (db : DB) : Decidable (allNonneg db) := by
  unfold allNonneg; infer_instance

/-- Every account reference present in the request names an existing
account (so the ledger insert cannot hit a foreign-key violation — the
"infrastructure failure" carve-out of the engine's contract). -/
def refsExist (data : CreateTransactionData) (db : DB) : Bool :=
  fkOk db.accounts data.source_account_id &&
    fkOk db.accounts data.destination_account_id

/-- The request violates one of the engine's business rules: non-positive
amount, missing required account reference for its type, or failing the
sufficient-funds check (the branch conditions of
`TransactionService.submitTransaction`, lines 28–73). -/
def violatesBusinessRule (data : CreateTransactionData) (db : DB) : Bool :=
  decide (data.amount ≤ 0) ||
  (decide (data.type = .deposit) && data.destination_account_id.isNone) ||
  ((decide (data.type = .withdrawal) || decide (data.type = .transfer)) &&
    data.source_account_id.isNone) ||
  (decide (data.type = .transfer) && data.destination_account_id.isNone) ||
  ((decide (data.type = .withdrawal) || decide (data.type = .transfer)) &&
    (match data.source_account_id with
     | some s => !(checkSufficientBalance db.accounts s data.amount)
     | none => false))

/-! ## Lemmas about the store operations -/

theorem adjust_id (aid : Nat) (d : Int) (a : Account) :
    (adjust aid d a).id = a.id := by
  unfold adjust
  split <;> rfl

theorem updateBalance_ok_iff {accts l : List Account} {aid : Nat} {d : Int} :
    updateBalance accts aid d = Except.ok l ↔
      ((∀ a ∈ accts, a.id = aid → 0 ≤ a.balance + d) ∧
        l = accts.map (adjust aid d)) := by
  unfold updateBalance
  by_cases h : accts.any (fun a => decide (a.id = aid ∧ a.balance + d < 0)) = true
  · rw [if_pos h]
    simp only [List.any_eq_true, decide_eq_true_eq] at h
    obtain ⟨a, ha, hid, hneg⟩ := h
    constructor
    · intro hco
      exact absurd hco (by simp)
    · rintro ⟨hall, -⟩
      have := hall a ha hid
      omega
  · rw [if_neg h]
    simp only [List.any_eq_true, decide_eq_true_eq, not_exists] at h
    constructor
    · intro hok
      cases hok
      refine ⟨?_, rfl⟩
      intro a ha hid
      by_contra hneg
      exact h a ⟨ha, hid, by omega⟩
    · rintro ⟨-, rfl⟩
      rfl

theorem updateBalance_nonneg {accts l : List Account} {aid : Nat} {d : Int}
    (hnn : ∀ a ∈ accts, 0 ≤ a.balance)
    (hok : updateBalance accts aid d = Except.ok l) :
    ∀ a ∈ l, 0 ≤ a.balance := by
  obtain ⟨hall, rfl⟩ := updateBalance_ok_iff.mp hok
  intro a ha
  obtain ⟨b, hb, rfl⟩ := List.mem_map.mp ha
  unfold adjust
  by_cases hid : b.id = aid
  · rw [if_pos hid]
    exact hall b hb hid
  · rw [if_neg hid]
    exact hnn b hb

theorem findById_map_adjust (accts : List Account) (x aid : Nat) (d : Int) :
    findById (accts.map (adjust aid d)) x =
      (findById accts x).map (adjust aid d) := by
  unfold findById
  rw [List.find?_map]
  have hpred : ((fun a : Account => decide (a.id = x)) ∘ adjust aid d)
      = fun a : Account => decide (a.id = x) := by
    funext a
    simp [Function.comp, adjust_id]
  rw [hpred]

theorem findById_some {accts : List Account} {aid : Nat} {a : Account}
    (h : findById accts aid = some a) : a ∈ accts ∧ a.id = aid := by
  unfold findById at h
  refine ⟨List.mem_of_find?_eq_some h, ?_⟩
  have h2 := List.find?_some h
  simpa using h2

theorem findById_eq_some_of_mem {accts : List Account} {a : Account} {aid : Nat}
    (hnd : (accts.map Account.id).Nodup) (ha : a ∈ accts) (hid : a.id = aid) :
    findById accts aid = some a := by
  induction accts with
  | nil => cases ha
  | cons b rest ih =>
    rw [List.map_cons, List.nodup_cons] at hnd
    obtain ⟨hbnotin, hndrest⟩ := hnd
    rcases List.mem_cons.mp ha with rfl | harest
    · unfold findById
      exact List.find?_cons_of_pos _ (by simpa using hid)
    · by_cases hb : b.id = aid
      · exfalso
        apply hbnotin
        rw [hb, ← hid]
        exact List.mem_map_of_mem Account.id harest
      · unfold findById
        rw [List.find?_cons_of_neg _ (by simpa using hb)]
        exact ih hndrest harest

theorem insertTransaction_ok_iff {db db2 : DB} {t : Txn} :
    insertTransaction db t = Except.ok db2 ↔
      (fkOk db.accounts t.source_account_id = true ∧
       fkOk db.accounts t.destination_account_id = true ∧
       db2 = { db with transactions := db.transactions ++ [t] }) := by
  unfold insertTransaction
  by_cases h1 : fkOk db.accounts t.source_account_id
  · by_cases h2 : fkOk db.accounts t.destination_account_id
    · simp [h1, h2, eq_comm]
    · simp [h1, h2]
  · simp [h1]

theorem processDeposit_nonneg {db db1 : DB} {aid : Nat} {amt : Int}
    (hnn : allNonneg db) (h : processDeposit db aid amt = Except.ok db1) :
    allNonneg db1 := by
  unfold processDeposit at h
  cases hub : updateBalance db.accounts aid amt with
  | error e => rw [hub] at h; cases h
  | ok accts =>
    rw [hub] at h
    cases h
    exact updateBalance_nonneg hnn hub

theorem processWithdrawal_nonneg {db db1 : DB} {aid : Nat} {amt : Int}
    (hnn : allNonneg db) (h : processWithdrawal db aid amt = Except.ok db1) :
    allNonneg db1 := by
  unfold processWithdrawal at h
  cases hub : updateBalance db.accounts aid (-amt) with
  | error e => rw [hub] at h; cases h
  | ok accts =>
    rw [hub] at h
    cases h
    exact updateBalance_nonneg hnn hub

theorem processTransfer_nonneg {db db1 : DB} {s d_ : Nat} {amt : Int}
    (hnn : allNonneg db) (h : processTransfer db s d_ amt = Except.ok db1) :
    allNonneg db1 := by
  unfold processTransfer at h
  cases hw : processWithdrawal db s amt with
  | error e => rw [hw] at h; cases h
  | ok dbm =>
    rw [hw] at h
    exact processDeposit_nonneg (processWithdrawal_nonneg hnn hw) h

theorem runTypeBranch_nonneg {data : CreateTransactionData} {db db1 : DB}
    {st : TxStatus} {r : Option String}
    (hnn : allNonneg db) (h : runTypeBranch data db = Except.ok (st, r, db1)) :
    allNonneg db1 := by
  unfold runTypeBranch at h
  by_cases hamt : data.amount ≤ 0
  · rw [if_pos hamt] at h
    cases h
    exact hnn
  · rw [if_neg hamt] at h
    cases htype : data.type with
    | deposit =>
      rw [htype] at h
      dsimp only at h
      cases hdst : data.destination_account_id with
      | none => rw [hdst] at h; cases h; exact hnn
      | some destId =>
        rw [hdst] at h
        dsimp only at h
        cases hdep : processDeposit db destId data.amount with
        | error e => rw [hdep] at h; cases h
        | ok dbd => rw [hdep] at h; cases h; exact processDeposit_nonneg hnn hdep
    | withdrawal =>
      rw [htype] at h
      dsimp only at h
      cases hsrc : data.source_account_id with
      | none => rw [hsrc] at h; cases h; exact hnn
      | some srcId =>
        rw [hsrc] at h
        dsimp only at h
        by_cases hchk : checkSufficientBalance db.accounts srcId data.amount
        · rw [hchk] at h
          simp only [Bool.not_true, Bool.false_eq_true, if_false] at h
          cases hwd : processWithdrawal db srcId data.amount with
          | error e => rw [hwd] at h; cases h
          | ok dbw => rw [hwd] at h; cases h; exact processWithdrawal_nonneg hnn hwd
        · rw [Bool.not_eq_true] at hchk
          rw [hchk] at h
          simp only [Bool.not_false, if_true] at h
          cases h
          exact hnn
    | transfer =>
      rw [htype] at h
      dsimp only at h
      cases hsrc : data.source_account_id with
      | none => rw [hsrc] at h; cases h; exact hnn
      | some srcId =>
        rw [hsrc] at h
        cases hdst : data.destination_account_id with
        | none => rw [hdst] at h; cases h; exact hnn
        | some destId =>
          rw [hdst] at h
          dsimp only at h
          by_cases hchk : checkSufficientBalance db.accounts srcId data.amount
          · rw [hchk] at h
            simp only [Bool.not_true, Bool.false_eq_true, if_false] at h
            cases htr : processTransfer db srcId destId data.amount with
            | error e => rw [htr] at h; cases h
            | ok dbt => rw [htr] at h; cases h; exact processTransfer_nonneg hnn htr
          · rw [Bool.not_eq_true] at hchk
            rw [hchk] at h
            simp only [Bool.not_false, if_true] at h
            cases h
            exact hnn

theorem submitTransaction_nonneg {data : CreateTransactionData} {db db2 : DB}
    {t : Txn} (hnn : allNonneg db)
    (h : submitTransaction data db = Except.ok (t, db2)) :
    allNonneg db2 := by
  unfold submitTransaction at h
  cases hb : runTypeBranch data db with
  | error e => rw [hb] at h; cases h
  | ok res =>
    obtain ⟨st, r, db1⟩ := res
    rw [hb] at h
    dsimp only at h
    cases hi : insertTransaction db1 (mkTxn data st r) with
    | error e => rw [hi] at h; cases h
    | ok db2' =>
      rw [hi] at h
      cases h
      obtain ⟨-, -, rfl⟩ := insertTransaction_ok_iff.mp hi
      have h1 := runTypeBranch_nonneg hnn hb
      intro a ha
      exact h1 a ha

theorem runRequest_nonneg {db : DB} {data : CreateTransactionData}
    (hnn : allNonneg db) : allNonneg (runRequest db data) := by
  unfold runRequest
  cases h : submitTransaction data db with
  | error e => exact hnn
  | ok res =>
    obtain ⟨t, db'⟩ := res
    exact submitTransaction_nonneg hnn h

theorem eq_of_findById_of_mem {accts : List Account} {aid : Nat} {acct a : Account}
    (hnd : (accts.map Account.id).Nodup)
    (hfind : findById accts aid = some acct)
    (ha : a ∈ accts) (hid : a.id = aid) : a = acct := by
  have h2 := findById_eq_some_of_mem hnd ha hid
  rw [hfind] at h2
  exact (Option.some.inj h2).symm

theorem checkSufficientBalance_eq_true {accts : List Account} {aid : Nat}
    {amt : Int} {acct : Account} (hfind : findById accts aid = some acct)
    (h : amt ≤ acct.balance) :
    checkSufficientBalance accts aid amt = true := by
  unfold checkSufficientBalance
  rw [hfind]
  simpa using h

theorem checkSufficientBalance_eq_false_of_lt {accts : List Account} {aid : Nat}
    {amt : Int} {acct : Account} (hfind : findById accts aid = some acct)
    (h : acct.balance < amt) :
    checkSufficientBalance accts aid amt = false := by
  unfold checkSufficientBalance
  rw [hfind]
  simpa using by omega

theorem checkSufficientBalance_eq_false_of_none {accts : List Account}
    {aid : Nat} {amt : Int} (hfind : findById accts aid = none) :
    checkSufficientBalance accts aid amt = false := by
  unfold checkSufficientBalance
  rw [hfind]

theorem processWithdrawal_ok {db : DB} {aid : Nat} {amt : Int}
    (hcond : ∀ a ∈ db.accounts, a.id = aid → 0 ≤ a.balance - amt) :
    processWithdrawal db aid amt
      = Except.ok { db with accounts := db.accounts.map (adjust aid (-amt)) } := by
  unfold processWithdrawal
  have hub : updateBalance db.accounts aid (-amt)
      = Except.ok (db.accounts.map (adjust aid (-amt))) :=
    updateBalance_ok_iff.mpr
      ⟨fun a ha hid => by have := hcond a ha hid; omega, rfl⟩
  rw [hub]

theorem processDeposit_ok {db : DB} {aid : Nat} {amt : Int}
    (hcond : ∀ a ∈ db.accounts, a.id = aid → 0 ≤ a.balance + amt) :
    processDeposit db aid amt
      = Except.ok { db with accounts := db.accounts.map (adjust aid amt) } := by
  unfold processDeposit
  have hub : updateBalance db.accounts aid amt
      = Except.ok (db.accounts.map (adjust aid amt)) :=
    updateBalance_ok_iff.mpr ⟨hcond, rfl⟩
  rw [hub]

theorem processTransfer_ok {db : DB} {srcId destId : Nat} {amt : Int}
    (hcond1 : ∀ a ∈ db.accounts, a.id = srcId → 0 ≤ a.balance - amt)
    (hcond2 : ∀ a ∈ db.accounts.map (adjust srcId (-amt)),
      a.id = destId → 0 ≤ a.balance + amt) :
    processTransfer db srcId destId amt
      = Except.ok { db with accounts :=
          (db.accounts.map (adjust srcId (-amt))).map (adjust destId amt) } := by
  unfold processTransfer
  rw [processWithdrawal_ok hcond1]
  exact processDeposit_ok hcond2

theorem adjust_neg_cancel (aid : Nat) (d : Int) (b : Account) :
    adjust aid d (adjust aid (-d) b) = b := by
  cases b with
  | mk i u bal =>
    by_cases hid : i = aid
    · simp [adjust, hid]
    · simp [adjust, hid]

/-! ## C1 — non-negative balance invariant -/

/-- C1: starting from any state in which every account balance is ≥ 0,
after any finite sequence of `submitTransaction` operations (deposits,
withdrawals, transfers, of any amounts and account references), every
account's committed balance is still ≥ 0.  (A call that throws rolls back
and leaves the state unchanged; a call that commits preserved the
store-level CHECK constraint and the engine's pre-check.) -/
theorem nonneg_balance_invariant (db : DB) (rs : List CreateTransactionData)
    (hnn : allNonneg db) : allNonneg (runRequests db rs) := by
  induction rs generalizing db with
  | nil => exact hnn
  | cons r rest ih => exact ih (runRequest db r) (runRequest_nonneg hnn)

/-- Witness for C1 at a concrete state and request sequence (a deposit, a
withdrawal within balance, and an overdraft attempt). -/
theorem nonneg_balance_invariant_witness :
    allNonneg ⟨[(1, "alice")], [⟨1, 1, 100⟩, ⟨2, 1, 0⟩], []⟩ ∧
      allNonneg (runRequests ⟨[(1, "alice")], [⟨1, 1, 100⟩, ⟨2, 1, 0⟩], []⟩
        [⟨.deposit, 50, none, some 1⟩,
         ⟨.withdrawal, 120, some 1, none⟩,
         ⟨.transfer, 200, some 1, some 2⟩,
         ⟨.withdrawal, 150, some 1, none⟩]) :=
  ⟨by decide, nonneg_balance_invariant _ _ (by decide)⟩

/-! ## C8 — store-level guard on the debit primitive -/

/-- C8: the Account Store's debit primitive (the UPDATE issued by
`TransactionService.processWithdrawal`, constrained by
`chk_balance_non_negative` of the schema) fails at the store level
whenever applying it would drive the account balance negative —
independently of, and in addition to, the engine's own sufficient-funds
pre-check, which plays no part in this statement. -/
theorem debit_store_level_check (db : DB) (aid : Nat) (amount : Int)
    (acct : Account) (hfind : findById db.accounts aid = some acct)
    (hlt : acct.balance < amount) :
    processWithdrawal db aid amount
      = Except.error "chk_balance_non_negative" := by
  obtain ⟨hmem, hid⟩ := findById_some hfind
  unfold processWithdrawal
  have hub : updateBalance db.accounts aid (-amount)
      = Except.error "chk_balance_non_negative" := by
    unfold updateBalance
    rw [if_pos]
    simp only [List.any_eq_true, decide_eq_true_eq]
    exact ⟨acct, hmem, hid, by omega⟩
  rw [hub]

/-- Witness for C8: debiting 250 from an account holding 100 errors at
the store. -/
theorem debit_store_level_check_witness :
    processWithdrawal ⟨[(1, "alice")], [⟨1, 1, 100⟩], []⟩ 1 250
      = Except.error "chk_balance_non_negative" :=
  debit_store_level_check _ 1 250 ⟨1, 1, 100⟩ (by decide) (by decide)

/-! ## C9 — self-transfer is a completed no-op -/

/-- C9: a transfer whose source equals its destination, with positive
amount covered by the account's balance, returns a completed Transaction
and leaves every balance unchanged (the debit and the credit hit the same
row and cancel inside the one atomic unit). -/
theorem self_transfer_noop (db : DB) (aid : Nat) (amount : Int)
    (acct : Account) (hwf : WF db)
    (hfind : findById db.accounts aid = some acct)
    (hpos : 0 < amount) (hbal : amount ≤ acct.balance) :
    ∃ t db', submitTransaction ⟨.transfer, amount, some aid, some aid⟩ db
        = Except.ok (t, db')
      ∧ t.status = .completed
      ∧ (∀ x, balanceOf db' x = balanceOf db x)
      ∧ db'.transactions = db.transactions ++ [t] := by
  have huniq : ∀ a ∈ db.accounts, a.id = aid → a = acct :=
    fun a ha hid => eq_of_findById_of_mem hwf hfind ha hid
  have hcond1 : ∀ a ∈ db.accounts, a.id = aid → 0 ≤ a.balance - amount := by
    intro a ha hid
    rw [huniq a ha hid]
    omega
  have hcond2 : ∀ a ∈ db.accounts.map (adjust aid (-amount)),
      a.id = aid → 0 ≤ a.balance + amount := by
    intro a ha hid
    obtain ⟨b, hb, rfl⟩ := List.mem_map.mp ha
    rw [adjust_id] at hid
    have hbacct := huniq b hb hid
    unfold adjust
    rw [if_pos hid, hbacct]
    show 0 ≤ (acct.balance + -amount) + amount
    omega
  have hmaps : (db.accounts.map (adjust aid (-amount))).map (adjust aid amount)
      = db.accounts := by
    rw [List.map_map]
    have hcg : ∀ b ∈ db.accounts,
        (adjust aid amount ∘ adjust aid (-amount)) b = id b :=
      fun b _ => adjust_neg_cancel aid amount b
    rw [List.map_congr_left hcg, List.map_id]
  have htr0 := processTransfer_ok hcond1 hcond2
  rw [hmaps] at htr0
  have htr : processTransfer db aid aid amount = Except.ok db := htr0
  have hchk : checkSufficientBalance db.accounts aid amount = true :=
    checkSufficientBalance_eq_true hfind hbal
  have hb : runTypeBranch ⟨.transfer, amount, some aid, some aid⟩ db
      = Except.ok (.completed, none, db) := by
    unfold runTypeBranch
    rw [if_neg (by omega : ¬ (amount ≤ 0))]
    dsimp only
    rw [hchk]
    simp only [Bool.not_true, Bool.false_eq_true, if_false]
    rw [htr]
  have hfk : fkOk db.accounts (some aid) = true := by
    simp [fkOk, hfind]
  have hins : insertTransaction db
        (mkTxn ⟨.transfer, amount, some aid, some aid⟩ .completed none)
      = Except.ok { db with transactions := db.transactions ++
          [mkTxn ⟨.transfer, amount, some aid, some aid⟩ .completed none] } :=
    insertTransaction_ok_iff.mpr ⟨hfk, hfk, rfl⟩
  refine ⟨mkTxn ⟨.transfer, amount, some aid, some aid⟩ .completed none,
    { db with transactions := db.transactions ++
        [mkTxn ⟨.transfer, amount, some aid, some aid⟩ .completed none] },
    ?_, rfl, fun x => rfl, rfl⟩
  unfold submitTransaction
  rw [hb]
  dsimp only
  rw [hins]

/-- Witness for C9: transferring 40 from account 1 to itself (balance
100) completes and leaves the balance at 100. -/
theorem self_transfer_noop_witness :
    ∃ t db', submitTransaction ⟨.transfer, 40, some 1, some 1⟩
        ⟨[(1, "alice")], [⟨1, 1, 100⟩], []⟩ = Except.ok (t, db')
      ∧ t.status = .completed
      ∧ (∀ x, balanceOf db' x =
          balanceOf ⟨[(1, "alice")], [⟨1, 1, 100⟩], []⟩ x)
      ∧ db'.transactions = [] ++ [t] :=
  self_transfer_noop ⟨[(1, "alice")], [⟨1, 1, 100⟩], []⟩ 1 40 ⟨1, 1, 100⟩
    (by decide) (by decide) (by decide) (by decide)

/-! ## C6 — concurrent withdrawals and the sufficient-funds check -/

/-- C6 (failing-input evaluation): with account 1 holding 100 and two
concurrent withdrawals of 80 each — each individually covered, not both
together — the interleaving read1·read2·upd1·upd2 (both non-locking
SELECTs run before either UPDATE) lets BOTH submissions pass the
sufficient-funds check against the same stale balance of 100.  The
check-then-mutate sequences do not serialize; only the store's CHECK
constraint stops the second debit, aborting that submission with a hard
error instead of a clean failed transaction. -/
theorem concurrent_withdrawals_both_pass_check :
    (runSchedule ⟨[⟨1, 1, 100⟩], ⟨1, 80, none, none⟩, ⟨1, 80, none, none⟩⟩
        [.read1, .read2, .upd1, .upd2]).p1.passedCheck = some true
  ∧ (runSchedule ⟨[⟨1, 1, 100⟩], ⟨1, 80, none, none⟩, ⟨1, 80, none, none⟩⟩
        [.read1, .read2, .upd1, .upd2]).p2.passedCheck = some true
  ∧ (runSchedule ⟨[⟨1, 1, 100⟩], ⟨1, 80, none, none⟩, ⟨1, 80, none, none⟩⟩
        [.read1, .read2, .upd1, .upd2]).p1.debited = some true
  ∧ (runSchedule ⟨[⟨1, 1, 100⟩], ⟨1, 80, none, none⟩, ⟨1, 80, none, none⟩⟩
        [.read1, .read2, .upd1, .upd2]).p2.debited = some false
  ∧ (runSchedule ⟨[⟨1, 1, 100⟩], ⟨1, 80, none, none⟩, ⟨1, 80, none, none⟩⟩
        [.read1, .read2, .upd1, .upd2]).accounts = [⟨1, 1, 20⟩] := by
  decide

/-! ## C7 — largest completed transaction in the summary report -/

theorem le_foldl_max (a : Int) (xs : List Int) : a ≤ xs.foldl max a := by
  induction xs generalizing a with
  | nil => exact le_refl a
  | cons x xs ih => exact le_trans (le_max_left a x) (ih (max a x))

theorem mem_le_foldl_max {x : Int} {xs : List Int} (a : Int) (hx : x ∈ xs) :
    x ≤ xs.foldl max a := by
  induction xs generalizing a with
  | nil => cases hx
  | cons y ys ih =>
    rcases List.mem_cons.mp hx with rfl | hmem
    · exact le_trans (le_max_right a x) (le_foldl_max _ ys)
    · exact ih (max a y) hmem

theorem foldl_max_mem (a : Int) (xs : List Int) : xs.foldl max a ∈ a :: xs := by
  induction xs generalizing a with
  | nil => exact List.mem_singleton.mpr rfl
  | cons x xs ih =>
    show xs.foldl max (max a x) ∈ a :: x :: xs
    rcases List.mem_cons.mp (ih (max a x)) with heq | hmem
    · rw [heq]
      rcases max_choice a x with hc | hc
      · rw [hc]
        exact List.mem_cons_self a _
      · rw [hc]
        exact List.mem_cons_of_mem a (List.mem_cons_self x xs)
    · exact List.mem_cons_of_mem a (List.mem_cons_of_mem x hmem)

theorem sqlMaxCoalesce0_upper {l : List Int} {x : Int} (hx : x ∈ l) :
    x ≤ sqlMaxCoalesce0 l := by
  cases l with
  | nil => cases hx
  | cons y ys =>
    show x ≤ ys.foldl max y
    rcases List.mem_cons.mp hx with rfl | hmem
    · exact le_foldl_max x ys
    · exact mem_le_foldl_max y hmem

theorem sqlMaxCoalesce0_mem {l : List Int} (hne : l ≠ []) :
    sqlMaxCoalesce0 l ∈ l := by
  cases l with
  | nil => exact absurd rfl hne
  | cons y ys => exact foldl_max_mem y ys

/-- C7: for every account row of the summary report, largest_transaction
is an upper bound of the amounts of all transactions with status
completed that reference the account as source or destination, is
attained by one of them whenever one exists, and equals 0 when none
exists. -/
theorem largest_transaction_correct (db : DB) (s : AccountSummary)
    (hs : s ∈ getSummaryReport db) :
    (∀ t ∈ db.transactions, joinsWithAccount s.account_id t = true →
       t.amount ≤ s.largest_transaction)
  ∧ ((∃ t ∈ db.transactions, joinsWithAccount s.account_id t = true) →
       ∃ t ∈ db.transactions, joinsWithAccount s.account_id t = true ∧
         t.amount = s.largest_transaction)
  ∧ ((∀ t ∈ db.transactions, joinsWithAccount s.account_id t = false) →
       s.largest_transaction = 0) := by
  unfold getSummaryReport at hs
  obtain ⟨a, ha, rfl⟩ := List.mem_map.mp hs
  dsimp only
  refine ⟨?_, ?_, ?_⟩
  · intro t ht hj
    apply sqlMaxCoalesce0_upper
    exact List.mem_map_of_mem Txn.amount (List.mem_filter.mpr ⟨ht, hj⟩)
  · rintro ⟨t0, ht0, hj0⟩
    have hne : (db.transactions.filter (joinsWithAccount a.id)).map Txn.amount ≠ [] := by
      intro hnil
      have : t0.amount ∈ ([] : List Int) := by
        rw [← hnil]
        exact List.mem_map_of_mem Txn.amount (List.mem_filter.mpr ⟨ht0, hj0⟩)
      cases this
    have hmem := sqlMaxCoalesce0_mem hne
    obtain ⟨t, htf, hamt⟩ := List.mem_map.mp hmem
    obtain ⟨htmem, htj⟩ := List.mem_filter.mp htf
    exact ⟨t, htmem, htj, hamt⟩
  · intro hall
    have hnil : db.transactions.filter (joinsWithAccount a.id) = [] :=
      List.filter_eq_nil_iff.mpr (fun t ht => by rw [hall t ht]; exact Bool.false_ne_true)
    rw [hnil]
    rfl

/-- Witness for C7 at a concrete database: account 1 has completed
transactions of amounts 70 and 40 (and a failed 500 that must be
ignored), so its summary row carries largest_transaction 70. -/
theorem largest_transaction_correct_witness :
    (∀ t ∈ [Txn.mk .deposit 70 none (some 1) .completed none,
            Txn.mk .withdrawal 500 (some 1) none .failed (some "Insufficient funds"),
            Txn.mk .transfer 40 (some 1) (some 2) .completed none],
       joinsWithAccount 1 t = true → t.amount ≤ 70)
  ∧ (∃ t ∈ [Txn.mk .deposit 70 none (some 1) .completed none,
            Txn.mk .withdrawal 500 (some 1) none .failed (some "Insufficient funds"),
            Txn.mk .transfer 40 (some 1) (some 2) .completed none],
       joinsWithAccount 1 t = true ∧ t.amount = 70) := by
  have h := largest_transaction_correct
    ⟨[(1, "alice")], [⟨1, 1, 100⟩],
     [Txn.mk .deposit 70 none (some 1) .completed none,
      Txn.mk .withdrawal 500 (some 1) none .failed (some "Insufficient funds"),
      Txn.mk .transfer 40 (some 1) (some 2) .completed none]⟩
    ⟨1, some "alice", 100, 70⟩ (by decide)
  exact ⟨h.1, h.2.1 ⟨Txn.mk .deposit 70 none (some 1) .completed none,
    by decide, by decide⟩⟩

/-! ## Failed-outcome plumbing shared by several claims -/

theorem submitTransaction_failed_of_branch {data : CreateTransactionData}
    {db : DB} {reason : String}
    (hb : runTypeBranch data db
      = Except.ok (.failed, some reason, db))
    (hrefs : refsExist data db = true) :
    submitTransaction data db
      = Except.ok (mkTxn data .failed (some reason),
          { db with transactions :=
              db.transactions ++ [mkTxn data .failed (some reason)] }) := by
  obtain ⟨hfk1, hfk2⟩ := Bool.and_eq_true_iff.mp hrefs
  have hins : insertTransaction db (mkTxn data .failed (some reason))
      = Except.ok { db with transactions :=
          db.transactions ++ [mkTxn data .failed (some reason)] } :=
    insertTransaction_ok_iff.mpr ⟨hfk1, hfk2, rfl⟩
  unfold submitTransaction
  rw [hb]
  dsimp only
  rw [hins]

/-! ## C4 — non-positive amounts -/

/-- C4 counterexample: a transfer of −10 from existing account 1 to
nonexistent account 2 does NOT produce a failed Transaction — recording
the failed row trips the destination foreign key, so `submitTransaction`
raises a hard error and no Transaction results. -/
theorem negative_amount_cex :
    submitTransaction ⟨.transfer, -10, some 1, some 2⟩
        ⟨[(1, "alice")], [⟨1, 1, 100⟩], []⟩
      = Except.error "fk_transactions_destination_account"
  ∧ ∀ r, submitTransaction ⟨.transfer, -10, some 1, some 2⟩
        ⟨[(1, "alice")], [⟨1, 1, 100⟩], []⟩ ≠ Except.ok r := by
  refine ⟨rfl, ?_⟩
  intro r h
  rw [show submitTransaction ⟨.transfer, -10, some 1, some 2⟩
        ⟨[(1, "alice")], [⟨1, 1, 100⟩], []⟩
      = Except.error "fk_transactions_destination_account" from rfl] at h
  exact Except.noConfusion h

/-- C4 amended: for every submitted transaction of any type with
amount ≤ 0 *whose account references all exist*, the result is a failed
Transaction with reason "Negative or zero amount not allowed", no balance
changes, and the type-specific branch is skipped entirely (the branch
conjunct holds for every request with amount ≤ 0, references aside; when
a reference names no account, the ledger insert violates a foreign key
and the call raises a hard error instead, changing nothing). -/
theorem negative_amount_amended (data : CreateTransactionData) (db : DB)
    (hamt : data.amount ≤ 0) (hrefs : refsExist data db = true) :
    runTypeBranch data db
      = Except.ok (.failed, some "Negative or zero amount not allowed", db)
  ∧ ∃ db', submitTransaction data db
        = Except.ok (mkTxn data .failed
            (some "Negative or zero amount not allowed"), db')
      ∧ db'.accounts = db.accounts
      ∧ db'.transactions = db.transactions ++
          [mkTxn data .failed (some "Negative or zero amount not allowed")] := by
  have hb : runTypeBranch data db
      = Except.ok (.failed, some "Negative or zero amount not allowed", db) := by
    unfold runTypeBranch
    rw [if_pos hamt]
  exact ⟨hb, { db with transactions := db.transactions ++
      [mkTxn data .failed (some "Negative or zero amount not allowed")] },
    submitTransaction_failed_of_branch hb hrefs, rfl, rfl⟩

/-- Witness for the amended C4: a deposit of −10 to existing account 1. -/
theorem negative_amount_amended_witness :
    runTypeBranch ⟨.deposit, -10, none, some 1⟩
        ⟨[(1, "alice")], [⟨1, 1, 100⟩], []⟩
      = Except.ok (.failed, some "Negative or zero amount not allowed",
          ⟨[(1, "alice")], [⟨1, 1, 100⟩], []⟩)
  ∧ ∃ db', submitTransaction ⟨.deposit, -10, none, some 1⟩
        ⟨[(1, "alice")], [⟨1, 1, 100⟩], []⟩
      = Except.ok (mkTxn ⟨.deposit, -10, none, some 1⟩ .failed
          (some "Negative or zero amount not allowed"), db')
    ∧ db'.accounts = [⟨1, 1, 100⟩]
    ∧ db'.transactions = [] ++
        [mkTxn ⟨.deposit, -10, none, some 1⟩ .failed
          (some "Negative or zero amount not allowed")] :=
  negative_amount_amended ⟨.deposit, -10, none, some 1⟩
    ⟨[(1, "alice")], [⟨1, 1, 100⟩], []⟩ (by decide) (by decide)

/-! ## C10 — withdrawal/transfer from a nonexistent source account -/

/-- C10 counterexample: a withdrawal of 10 from nonexistent account 2 is
classified "Insufficient funds", but `submitTransaction` does not return
that failed Transaction: inserting the ledger row violates the source
foreign key and the call raises a hard error. -/
theorem absent_source_cex :
    submitTransaction ⟨.withdrawal, 10, some 2, none⟩
        ⟨[(1, "alice")], [⟨1, 1, 100⟩], []⟩
      = Except.error "fk_transactions_source_account"
  ∧ ∀ r, submitTransaction ⟨.withdrawal, 10, some 2, none⟩
        ⟨[(1, "alice")], [⟨1, 1, 100⟩], []⟩ ≠ Except.ok r := by
  refine ⟨rfl, ?_⟩
  intro r h
  rw [show submitTransaction ⟨.withdrawal, 10, some 2, none⟩
        ⟨[(1, "alice")], [⟨1, 1, 100⟩], []⟩
      = Except.error "fk_transactions_source_account" from rfl] at h
  exact Except.noConfusion h

/-- C10 amended: a withdrawal or transfer with amount > 0 whose
source_account_id matches no existing account is classified by the
engine as failed with reason "Insufficient funds" (an absent source is
indistinguishable from a zero balance in the pre-check) and no balance is
mutated — but recording the failed transaction violates the
transactions.source_account_id foreign key, so the call raises a hard
error instead of returning the failed Transaction, and the observable
state is completely unchanged. -/
theorem absent_source_amended (data : CreateTransactionData) (db : DB)
    (htype : data.type = .withdrawal ∨ data.type = .transfer)
    (hamt : 0 < data.amount)
    (hsrc : ∃ s, data.source_account_id = some s
      ∧ findById db.accounts s = none)
    (hdst : data.type = .transfer → (data.destination_account_id).isSome = true) :
    runTypeBranch data db = Except.ok (.failed, some "Insufficient funds", db)
  ∧ submitTransaction data db = Except.error "fk_transactions_source_account"
  ∧ runRequest db data = db := by
  obtain ⟨s, hs, hfind⟩ := hsrc
  have hchk : checkSufficientBalance db.accounts s data.amount = false :=
    checkSufficientBalance_eq_false_of_none hfind
  have hb : runTypeBranch data db
      = Except.ok (.failed, some "Insufficient funds", db) := by
    unfold runTypeBranch
    rw [if_neg (by omega)]
    rcases htype with ht | ht
    · rw [ht]
      dsimp only
      rw [hs]
      dsimp only
      rw [hchk]
      rfl
    · rw [ht]
      dsimp only
      obtain ⟨d0, hd⟩ := Option.isSome_iff_exists.mp (hdst ht)
      rw [hs, hd]
      dsimp only
      rw [hchk]
      rfl
  have hfk : fkOk db.accounts
      (mkTxn data .failed (some "Insufficient funds")).source_account_id
        = false := by
    show fkOk db.accounts data.source_account_id = false
    rw [hs]
    unfold fkOk
    dsimp only
    rw [hfind]
    rfl
  have hins : insertTransaction db (mkTxn data .failed (some "Insufficient funds"))
      = Except.error "fk_transactions_source_account" := by
    unfold insertTransaction
    rw [hfk]
    rfl
  have hsub : submitTransaction data db
      = Except.error "fk_transactions_source_account" := by
    unfold submitTransaction
    rw [hb]
    dsimp only
    rw [hins]
  refine ⟨hb, hsub, ?_⟩
  unfold runRequest
  rw [hsub]

/-- Witness for the amended C10: a transfer of 25 from nonexistent
account 5 to existing account 1. -/
theorem absent_source_amended_witness :
    runTypeBranch ⟨.transfer, 25, some 5, some 1⟩
        ⟨[(1, "alice")], [⟨1, 1, 100⟩], []⟩
      = Except.ok (.failed, some "Insufficient funds",
          ⟨[(1, "alice")], [⟨1, 1, 100⟩], []⟩)
  ∧ submitTransaction ⟨.transfer, 25, some 5, some 1⟩
        ⟨[(1, "alice")], [⟨1, 1, 100⟩], []⟩
      = Except.error "fk_transactions_source_account"
  ∧ runRequest ⟨[(1, "alice")], [⟨1, 1, 100⟩], []⟩
        ⟨.transfer, 25, some 5, some 1⟩
      = ⟨[(1, "alice")], [⟨1, 1, 100⟩], []⟩ :=
  absent_source_amended ⟨.transfer, 25, some 5, some 1⟩
    ⟨[(1, "alice")], [⟨1, 1, 100⟩], []⟩
    (Or.inr rfl) (by decide) ⟨5, rfl, rfl⟩ (fun _ => rfl)

/-! ## C3 — business-rule violations return failed Transactions -/

theorem runTypeBranch_failed_of_violation {data : CreateTransactionData}
    {db : DB} (hviol : violatesBusinessRule data db = true) :
    ∃ reason, runTypeBranch data db
      = Except.ok (.failed, some reason, db) := by
  by_cases hamt : data.amount ≤ 0
  · refine ⟨"Negative or zero amount not allowed", ?_⟩
    unfold runTypeBranch
    rw [if_pos hamt]
  · unfold violatesBusinessRule at hviol
    simp only [Bool.or_eq_true, Bool.and_eq_true, decide_eq_true_eq] at hviol
    rcases hviol with (((h1 | h2) | h3) | h4) | h5
    · exact absurd h1 hamt
    · obtain ⟨ht, hdn⟩ := h2
      have hd := Option.isNone_iff_eq_none.mp hdn
      refine ⟨"Destination account required for deposit", ?_⟩
      unfold runTypeBranch
      rw [if_neg hamt, ht]
      dsimp only
      rw [hd]
    · obtain ⟨ht, hsn⟩ := h3
      have hs := Option.isNone_iff_eq_none.mp hsn
      rcases ht with ht | ht
      · refine ⟨"Source account required for withdrawal", ?_⟩
        unfold runTypeBranch
        rw [if_neg hamt, ht]
        dsimp only
        rw [hs]
      · refine ⟨"Both source and destination accounts required for transfer", ?_⟩
        unfold runTypeBranch
        rw [if_neg hamt, ht]
        dsimp only
        rw [hs]
    · obtain ⟨ht, hdn⟩ := h4
      have hd := Option.isNone_iff_eq_none.mp hdn
      refine ⟨"Both source and destination accounts required for transfer", ?_⟩
      unfold runTypeBranch
      rw [if_neg hamt, ht]
      dsimp only
      cases hso : data.source_account_id with
      | none => rw [hd]
      | some s => rw [hd]
    · obtain ⟨ht, hm⟩ := h5
      cases hso : data.source_account_id with
      | none =>
        rw [hso] at hm
        exact Bool.noConfusion hm
      | some s =>
        rw [hso] at hm
        dsimp only at hm
        have hchk : checkSufficientBalance db.accounts s data.amount = false := by
          cases hc : checkSufficientBalance db.accounts s data.amount
          · rfl
          · rw [hc] at hm
            exact Bool.noConfusion hm
        rcases ht with ht | ht
        · refine ⟨"Insufficient funds", ?_⟩
          unfold runTypeBranch
          rw [if_neg hamt, ht]
          dsimp only
          rw [hso]
          dsimp only
          rw [hchk]
          rfl
        · cases hdo : data.destination_account_id with
          | none =>
            refine ⟨"Both source and destination accounts required for transfer", ?_⟩
            unfold runTypeBranch
            rw [if_neg hamt, ht]
            dsimp only
            rw [hso, hdo]
          | some d0 =>
            refine ⟨"Insufficient funds", ?_⟩
            unfold runTypeBranch
            rw [if_neg hamt, ht]
            dsimp only
            rw [hso, hdo]
            dsimp only
            rw [hchk]
            rfl

/-- C3: for every submitted request violating a business rule
(non-positive amount, missing required account reference, insufficient
funds) whose present account references all exist — i.e. no
infrastructure-level constraint violation, the claim's own carve-out —
`submitTransaction` does not throw: it returns a Transaction with status
failed and a failure_reason string, no balance changes, and the failed
attempt is recorded in the ledger. -/
theorem business_rule_no_throw (data : CreateTransactionData) (db : DB)
    (hrefs : refsExist data db = true)
    (hviol : violatesBusinessRule data db = true) :
    ∃ reason db', submitTransaction data db
        = Except.ok (mkTxn data .failed (some reason), db')
      ∧ db'.accounts = db.accounts
      ∧ db'.transactions = db.transactions
          ++ [mkTxn data .failed (some reason)] := by
  obtain ⟨reason, hb⟩ := runTypeBranch_failed_of_violation hviol
  exact ⟨reason, { db with transactions := db.transactions
      ++ [mkTxn data .failed (some reason)] },
    submitTransaction_failed_of_branch hb hrefs, rfl, rfl⟩

/-- Witness for C3: an overdraft withdrawal of 500 against account 1
(balance 100). -/
theorem business_rule_no_throw_witness :
    ∃ reason db', submitTransaction ⟨.withdrawal, 500, some 1, none⟩
        ⟨[(1, "alice")], [⟨1, 1, 100⟩], []⟩
      = Except.ok (mkTxn ⟨.withdrawal, 500, some 1, none⟩ .failed
          (some reason), db')
    ∧ db'.accounts = [⟨1, 1, 100⟩]
    ∧ db'.transactions = [] ++ [mkTxn ⟨.withdrawal, 500, some 1, none⟩
        .failed (some reason)] :=
  business_rule_no_throw ⟨.withdrawal, 500, some 1, none⟩
    ⟨[(1, "alice")], [⟨1, 1, 100⟩], []⟩ (by decide) (by decide)

/-! ## C2 — transfer atomicity -/

/-- C2 counterexample: a transfer of 10 from existing account 1 (balance
100) to nonexistent account 2 produces NEITHER of the claim's two
outcomes: `submitTransaction` raises a hard error (destination foreign
key on the ledger insert), records no Transaction at all — completed or
failed — and changes no balance. -/
theorem transfer_atomicity_cex :
    submitTransaction ⟨.transfer, 10, some 1, some 2⟩
        ⟨[(1, "alice")], [⟨1, 1, 100⟩], []⟩
      = Except.error "fk_transactions_destination_account"
  ∧ ∀ r, submitTransaction ⟨.transfer, 10, some 1, some 2⟩
        ⟨[(1, "alice")], [⟨1, 1, 100⟩], []⟩ ≠ Except.ok r := by
  refine ⟨rfl, ?_⟩
  intro r h
  rw [show submitTransaction ⟨.transfer, 10, some 1, some 2⟩
        ⟨[(1, "alice")], [⟨1, 1, 100⟩], []⟩
      = Except.error "fk_transactions_destination_account" from rfl] at h
  exact Except.noConfusion h

/-- C2 amended: for every transfer of amount a between two DISTINCT
EXISTING accounts A and B, `submitTransaction` either changes both
balances (A decreased by a, B increased by a, every other account
untouched) and records exactly one completed Transaction, or changes no
balance and records exactly one failed Transaction — never a partial
state.  (When a referenced account does not exist, the call instead
raises a hard error, changes nothing and records nothing — the
counterexample; a self-transfer is covered separately by C9.) -/
theorem transfer_atomicity_amended (db : DB) (srcId destId : Nat)
    (amount : Int) (aS aD : Account) (hwf : WF db)
    (hS : findById db.accounts srcId = some aS)
    (hD : findById db.accounts destId = some aD)
    (hne : srcId ≠ destId) (hDnn : 0 ≤ aD.balance) :
    (∃ t db', submitTransaction ⟨.transfer, amount, some srcId, some destId⟩ db
        = Except.ok (t, db')
      ∧ t.status = .completed
      ∧ db'.transactions = db.transactions ++ [t]
      ∧ balanceOf db' srcId = some (aS.balance - amount)
      ∧ balanceOf db' destId = some (aD.balance + amount)
      ∧ ∀ x, x ≠ srcId → x ≠ destId → balanceOf db' x = balanceOf db x)
  ∨ (∃ t db', submitTransaction ⟨.transfer, amount, some srcId, some destId⟩ db
        = Except.ok (t, db')
      ∧ t.status = .failed
      ∧ t.failure_reason.isSome = true
      ∧ db'.transactions = db.transactions ++ [t]
      ∧ ∀ x, balanceOf db' x = balanceOf db x) := by
  have hrefs : refsExist ⟨.transfer, amount, some srcId, some destId⟩ db = true := by
    unfold refsExist fkOk
    dsimp only
    rw [hS, hD]
    rfl
  have hSmem := findById_some hS
  have hDmem := findById_some hD
  by_cases hamt : amount ≤ 0
  · right
    have hb : runTypeBranch ⟨.transfer, amount, some srcId, some destId⟩ db
        = Except.ok (.failed, some "Negative or zero amount not allowed", db) := by
      unfold runTypeBranch
      rw [if_pos hamt]
    exact ⟨_, _, submitTransaction_failed_of_branch hb hrefs,
      rfl, rfl, rfl, fun x => rfl⟩
  · by_cases hbal : amount ≤ aS.balance
    · left
      have huniqS : ∀ a ∈ db.accounts, a.id = srcId → a = aS :=
        fun a ha hid => eq_of_findById_of_mem hwf hS ha hid
      have huniqD : ∀ a ∈ db.accounts, a.id = destId → a = aD :=
        fun a ha hid => eq_of_findById_of_mem hwf hD ha hid
      have hcond1 : ∀ a ∈ db.accounts, a.id = srcId → 0 ≤ a.balance - amount := by
        intro a ha hid
        rw [huniqS a ha hid]
        omega
      have hcond2 : ∀ a ∈ db.accounts.map (adjust srcId (-amount)),
          a.id = destId → 0 ≤ a.balance + amount := by
        intro a ha hid
        obtain ⟨b, hb, rfl⟩ := List.mem_map.mp ha
        rw [adjust_id] at hid
        have hbD := huniqD b hb hid
        unfold adjust
        rw [if_neg (fun hc => hne (hc.symm.trans hid))]
        rw [hbD]
        omega
      have htr := processTransfer_ok hcond1 hcond2
      have hchk : checkSufficientBalance db.accounts srcId amount = true :=
        checkSufficientBalance_eq_true hS hbal
      have hb : runTypeBranch ⟨.transfer, amount, some srcId, some destId⟩ db
          = Except.ok (.completed, none, { db with accounts :=
              (db.accounts.map (adjust srcId (-amount))).map (adjust destId amount) }) := by
        unfold runTypeBranch
        rw [if_neg hamt]
        dsimp only
        rw [hchk]
        simp only [Bool.not_true, Bool.false_eq_true, if_false]
        rw [htr]
      have hfind2 : ∀ x,
          findById ((db.accounts.map (adjust srcId (-amount))).map (adjust destId amount)) x
            = ((findById db.accounts x).map (adjust srcId (-amount))).map (adjust destId amount) := by
        intro x
        rw [findById_map_adjust, findById_map_adjust]
      have hfkS : fkOk ((db.accounts.map (adjust srcId (-amount))).map (adjust destId amount))
          (some srcId) = true := by
        unfold fkOk
        dsimp only
        rw [hfind2 srcId, hS]
        rfl
      have hfkD : fkOk ((db.accounts.map (adjust srcId (-amount))).map (adjust destId amount))
          (some destId) = true := by
        unfold fkOk
        dsimp only
        rw [hfind2 destId, hD]
        rfl
      have hsub : submitTransaction ⟨.transfer, amount, some srcId, some destId⟩ db
          = Except.ok (mkTxn ⟨.transfer, amount, some srcId, some destId⟩ .completed none,
              ⟨db.users,
               (db.accounts.map (adjust srcId (-amount))).map (adjust destId amount),
               db.transactions ++
                 [mkTxn ⟨.transfer, amount, some srcId, some destId⟩ .completed none]⟩) := by
        unfold submitTransaction
        rw [hb]
        dsimp only
        rw [insertTransaction_ok_iff.mpr ⟨hfkS, hfkD, rfl⟩]
      refine ⟨_, _, hsub, rfl, rfl, ?_, ?_, ?_⟩
      · show ((findById ((db.accounts.map (adjust srcId (-amount))).map (adjust destId amount))
            srcId).map Account.balance) = some (aS.balance - amount)
        rw [hfind2 srcId, hS]
        simp [adjust, hSmem.2, hne, Int.sub_eq_add_neg]
      · show ((findById ((db.accounts.map (adjust srcId (-amount))).map (adjust destId amount))
            destId).map Account.balance) = some (aD.balance + amount)
        rw [hfind2 destId, hD]
        simp [adjust, hDmem.2, Ne.symm hne]
      · intro x hx1 hx2
        show ((findById ((db.accounts.map (adjust srcId (-amount))).map (adjust destId amount))
            x).map Account.balance) = (findById db.accounts x).map Account.balance
        rw [hfind2 x]
        cases hfx : findById db.accounts x with
        | none => rfl
        | some a =>
          have hax := (findById_some hfx).2
          simp [adjust, hax, hx1, hx2]
    · right
      have hchk : checkSufficientBalance db.accounts srcId amount = false :=
        checkSufficientBalance_eq_false_of_lt hS (by omega)
      have hb : runTypeBranch ⟨.transfer, amount, some srcId, some destId⟩ db
          = Except.ok (.failed, some "Insufficient funds", db) := by
        unfold runTypeBranch
        rw [if_neg hamt]
        dsimp only
        rw [hchk]
        rfl
      exact ⟨_, _, submitTransaction_failed_of_branch hb hrefs,
        rfl, rfl, rfl, fun x => rfl⟩

/-- Witness for the amended C2: transfer 30 from account 1 (balance 100)
to account 2 (balance 50). -/
theorem transfer_atomicity_amended_witness :
    (∃ t db', submitTransaction ⟨.transfer, 30, some 1, some 2⟩
        ⟨[(1, "alice"), (2, "bob")], [⟨1, 1, 100⟩, ⟨2, 2, 50⟩], []⟩
        = Except.ok (t, db')
      ∧ t.status = .completed
      ∧ db'.transactions = [] ++ [t]
      ∧ balanceOf db' 1 = some ((100 : Int) - 30)
      ∧ balanceOf db' 2 = some ((50 : Int) + 30)
      ∧ ∀ x, x ≠ 1 → x ≠ 2 → balanceOf db' x =
          balanceOf ⟨[(1, "alice"), (2, "bob")], [⟨1, 1, 100⟩, ⟨2, 2, 50⟩], []⟩ x)
  ∨ (∃ t db', submitTransaction ⟨.transfer, 30, some 1, some 2⟩
        ⟨[(1, "alice"), (2, "bob")], [⟨1, 1, 100⟩, ⟨2, 2, 50⟩], []⟩
        = Except.ok (t, db')
      ∧ t.status = .failed
      ∧ t.failure_reason.isSome = true
      ∧ db'.transactions = [] ++ [t]
      ∧ ∀ x, balanceOf db' x =
          balanceOf ⟨[(1, "alice"), (2, "bob")], [⟨1, 1, 100⟩, ⟨2, 2, 50⟩], []⟩ x) :=
  transfer_atomicity_amended ⟨[(1, "alice"), (2, "bob")], [⟨1, 1, 100⟩, ⟨2, 2, 50⟩], []⟩
    1 2 30 ⟨1, 1, 100⟩ ⟨2, 2, 50⟩ (by decide) (by decide) (by decide)
    (by decide) (by decide)

/-! ## C5 — HTTP statuses for authorization failures -/

/-- C5 counterexample: authenticated user 1 submits a withdrawal from
account 2, which belongs to user 2.  The controller throws
`AppError("Unauthorized access to source account", 403)`, but its own
catch block rewraps every `Error` — `AppError` included — as
`AppError(message, 400)`, and `errorHandler` has no message override for
"Unauthorized access to source account", so the response status is 400,
not the claimed 403. -/
theorem authorization_status_cex :
    (controllerSubmitTransaction 1 ⟨.withdrawal, 10, some 2, none⟩
        ⟨[(1, "alice"), (2, "bob")], [⟨1, 1, 100⟩, ⟨2, 2, 50⟩], []⟩).status = 400
  ∧ (controllerSubmitTransaction 1 ⟨.withdrawal, 10, some 2, none⟩
        ⟨[(1, "alice"), (2, "bob")], [⟨1, 1, 100⟩, ⟨2, 2, 50⟩], []⟩).status ≠ 403 := by
  refine ⟨rfl, ?_⟩
  intro h
  rw [show (controllerSubmitTransaction 1 ⟨.withdrawal, 10, some 2, none⟩
        ⟨[(1, "alice"), (2, "bob")], [⟨1, 1, 100⟩, ⟨2, 2, 50⟩], []⟩).status
      = 400 from rfl] at h
  exact absurd h (by decide)

/-- C5 amended: for every POST /api/transactions request that passes
authentication and shape validation, a missing referenced source account
(or destination account, for a deposit) yields response status 404, and
an ownership mismatch on the referenced source account (or destination
account, for a deposit) yields response status 400 — not 403: the
controller's catch block rewraps its own 403 `AppError` with status 400
and the error handler only restores the 404s by message. -/
theorem authorization_status_amended (userId : Nat)
    (data : CreateTransactionData) (db : DB)
    (hshape : shapeValid data = true) :
    (∀ s, data.source_account_id = some s → findById db.accounts s = none →
      (controllerSubmitTransaction userId data db).status = 404)
  ∧ (∀ s a, data.source_account_id = some s → findById db.accounts s = some a →
      a.user_id ≠ userId →
      (controllerSubmitTransaction userId data db).status = 400)
  ∧ (data.type = .deposit → ∀ d0, data.destination_account_id = some d0 →
      findById db.accounts d0 = none →
      (controllerSubmitTransaction userId data db).status = 404)
  ∧ (data.type = .deposit → ∀ d0 a, data.destination_account_id = some d0 →
      findById db.accounts d0 = some a → a.user_id ≠ userId →
      (controllerSubmitTransaction userId data db).status = 400) := by
  refine ⟨?_, ?_, ?_, ?_⟩
  · intro s hs hf
    unfold controllerSubmitTransaction
    rw [hs]
    dsimp only
    rw [hf]
    rfl
  · intro s a hs hf hu
    unfold controllerSubmitTransaction
    rw [hs]
    dsimp only
    rw [hf]
    dsimp only
    rw [if_neg hu]
    rfl
  · intro ht d0 hd hf
    have hsnone : data.source_account_id = none := by
      unfold shapeValid at hshape
      rw [ht] at hshape
      dsimp only at hshape
      exact Option.isNone_iff_eq_none.mp (Bool.and_eq_true_iff.mp hshape).1
    unfold controllerSubmitTransaction
    rw [hsnone]
    dsimp only
    rw [hd, ht]
    dsimp only
    rw [hf]
    rfl
  · intro ht d0 a hd hf hu
    have hsnone : data.source_account_id = none := by
      unfold shapeValid at hshape
      rw [ht] at hshape
      dsimp only at hshape
      exact Option.isNone_iff_eq_none.mp (Bool.and_eq_true_iff.mp hshape).1
    unfold controllerSubmitTransaction
    rw [hsnone]
    dsimp only
    rw [hd, ht]
    dsimp only
    rw [hf]
    dsimp only
    rw [if_neg hu]
    rfl

/-- Witness for the amended C5: user 1 deposits into account 2, owned by
user 2 — the response status is 400. -/
theorem authorization_status_amended_witness :
    (controllerSubmitTransaction 1 ⟨.deposit, 10, none, some 2⟩
        ⟨[(1, "alice"), (2, "bob")], [⟨1, 1, 100⟩, ⟨2, 2, 50⟩], []⟩).status = 400 :=
  (authorization_status_amended 1 ⟨.deposit, 10, none, some 2⟩
      ⟨[(1, "alice"), (2, "bob")], [⟨1, 1, 100⟩, ⟨2, 2, 50⟩], []⟩
      (by decide)).2.2.2 rfl 2 ⟨2, 2, 50⟩ rfl rfl (by decide)

end Banking
